import Mathlib

/-!
Shallow embedding of the size-map CLI repository: the shared input
validator and size parser (identical in notAutoInsert.js, sizeMapRef.js
and the unnamed first-plus-extensions variant), the two size-map
assemblers, the no-configuration short circuit, and the launcher in
main.js.  JavaScript strings are modelled as Lean strings, JavaScript
arrays as lists, JavaScript null as Option.none, and the NaN result of
parseInt as Option.none in a pair component.
-/

/-- Characters treated as whitespace by the JavaScript trim and parseInt
operations (ECMAScript WhiteSpace and LineTerminator code points). -/
def isJsWs (c : Char) : Bool :=
  let n := c.toNat
  n == 9 || n == 10 || n == 11 || n == 12 || n == 13 || n == 32 ||
  n == 160 || n == 5760 || (decide (8192 ≤ n) && decide (n ≤ 8202)) ||
  n == 8232 || n == 8233 || n == 8239 || n == 8287 || n == 12288 || n == 65279

/-- Decimal digit test, the character class matched by the regex \d. -/
def isDigitChar (c : Char) : Bool :=
  decide (48 ≤ c.toNat) && decide (c.toNat ≤ 57)

/-- Value of a list of decimal digit characters, most significant first. -/
def digitsToNat (ds : List Char) : Nat :=
  ds.foldl (fun acc c => 10 * acc + (c.toNat - 48)) 0

/-- Lowercase mapping of one character, as toLowerCase acts on the ASCII
range (the only range the sources compare against). -/
def toLowerChar (c : Char) : Char :=
  if decide (65 ≤ c.toNat) && decide (c.toNat ≤ 90) then Char.ofNat (c.toNat + 32)
  else c

/-- JavaScript String.prototype.toLowerCase, on the ASCII range. -/
def jsToLower (s : String) : String :=
  (s.toList.map toLowerChar).asString

/-- Uppercase mapping of one character, as toUpperCase acts on the ASCII
range (the only range the sources compare against). -/
def toUpperChar (c : Char) : Char :=
  if decide (97 ≤ c.toNat) && decide (c.toNat ≤ 122) then Char.ofNat (c.toNat - 32)
  else c

/-- JavaScript String.prototype.toUpperCase, on the ASCII range. -/
def jsToUpper (s : String) : String :=
  (s.toList.map toUpperChar).asString

/-- JavaScript String.prototype.split with a one-character separator, on
character lists.  As in JavaScript, splitting the empty string yields one
empty piece, and adjacent separators yield empty pieces. -/
def splitOnCharList (sep : Char) : List Char → List (List Char)
  | [] => [[]]
  | c :: rest =>
    let r := splitOnCharList sep rest
    if c = sep then [] :: r
    else
      match r with
      | [] => [[c]]
      | h :: t => (c :: h) :: t

/-- JavaScript split with a one-character separator, on strings. -/
def jsSplit (sep : Char) (s : String) : List String :=
  (splitOnCharList sep s.toList).map (fun cs => cs.asString)

/-- JavaScript String.prototype.trim on character lists: strip leading and
trailing whitespace. -/
def trimList (cs : List Char) : List Char :=
  (((cs.dropWhile isJsWs).reverse.dropWhile isJsWs)).reverse

/-- JavaScript String.prototype.trim on strings. -/
def jsTrim (s : String) : String :=
  (trimList s.toList).asString

/-- The regex test for one size token on character lists: one or more
digits, the literal lowercase x, one or more digits, nothing else. -/
def matchesWxHList (cs : List Char) : Bool :=
  let intPart := cs.takeWhile isDigitChar
  let rest := cs.dropWhile isDigitChar
  !intPart.isEmpty &&
    (match rest with
     | 'x' :: rest2 => !rest2.isEmpty && rest2.all isDigitChar
     | _ => false)

/-- The test regex.test(input) for the anchored pattern matching digits,
a lowercase x, then digits. -/
def matchesWxH (s : String) : Bool :=
  matchesWxHList s.toList

/-- isValidFormat from the source: the empty string, the exact lowercase
literal null, or a string matching the WidthxHeight regex. -/
def isValidFormat (input : String) : Bool :=
  input == "" || input == "null" || matchesWxH input

/-- JavaScript parseInt with radix 10 on character lists: skip leading
whitespace, consume one optional sign, then the longest prefix of decimal
digits; none models the NaN result when no digit follows. -/
def jsParseIntList (cs : List Char) : Option Int :=
  let afterWs := cs.dropWhile isJsWs
  let neg : Bool := afterWs.headD ' ' == '-'
  let rest :=
    if afterWs.headD ' ' == '-' || afterWs.headD ' ' == '+' then afterWs.tail
    else afterWs
  let ds := rest.takeWhile isDigitChar
  if ds.isEmpty then none
  else if neg then some (-(digitsToNat ds : Int))
  else some ((digitsToNat ds : Int))

/-- JavaScript parseInt with radix 10 on strings. -/
def jsParseInt (s : String) : Option Int :=
  jsParseIntList s.toList

/-- One parsed size pair: the results of parseInt on the width and height
substrings; none models NaN (including parseInt of an undefined part). -/
abbrev SizePair := Option Int × Option Int

/-- The body of the map in parseSizes: split one token on the literal x,
take the first two parts as width and height (the height part may be
undefined when the token holds no x), and parseInt each with radix 10. -/
def parseToken (size : String) : SizePair :=
  let parts := jsSplit 'x' size
  (match parts.get? 0 with
   | some w => jsParseInt w
   | none => none,
   match parts.get? 1 with
   | some h => jsParseInt h
   | none => none)

/-- parseSizes from the source: null input (case-insensitively) gives
null, the empty string gives the empty array, and otherwise the input is
split on commas and each token is parsed into a size pair. -/
def parseSizes (inputSizes : String) : Option (List SizePair) :=
  if jsToLower inputSizes = "null" then none
  else if inputSizes = "" then some []
  else some ((jsSplit ',' inputSizes).map parseToken)

/-- The acceptance condition of the getValidInput loop: the loop keeps
re-prompting while the input is non-empty, not case-insensitively null,
and some comma token fails isValidFormat after trimming; it accepts
exactly the negation of that condition. -/
def getValidInputAccepts (input : String) : Bool :=
  !(input != "" && jsToLower input != "null" &&
    (jsSplit ',' input).any (fun size => !isValidFormat (jsTrim size)))

/-- One entry of the list-of-breakpoints size map: a one-element
breakpoint-threshold array paired with either a size-pair array or null. -/
abbrev SizeMapEntry := List Nat × Option (List SizePair)

/-- The output object of the two list-of-breakpoints assemblers, holding
the sizeMap array. -/
structure SizeMapObj where
  sizeMap : List SizeMapEntry
deriving DecidableEq

namespace NotAutoInsert

/-- createSizeMap from notAutoInsert.js: push a desktop entry under
threshold 992 when the desktop result is null or non-empty, then a tablet
entry under 768, then a mobile entry under 0, skipping empty arrays. -/
def createSizeMap (desktopSizes tabletSizes mobileSizes : Option (List SizePair)) :
    SizeMapObj :=
  let sizeMap : List SizeMapEntry := []
  let sizeMap :=
    match desktopSizes with
    | none => sizeMap ++ [([992], none)]
    | some l => if 0 < l.length then sizeMap ++ [([992], some l)] else sizeMap
  let sizeMap :=
    match tabletSizes with
    | none => sizeMap ++ [([768], none)]
    | some l => if 0 < l.length then sizeMap ++ [([768], some l)] else sizeMap
  let sizeMap :=
    match mobileSizes with
    | none => sizeMap ++ [([0], none)]
    | some l => if 0 < l.length then sizeMap ++ [([0], some l)] else sizeMap
  ⟨sizeMap⟩

/-- The condition desktopSizes === null or desktopSizes.length === 0 used
by the all-empty short circuit in generateSizeMap. -/
def isNullOrEmpty : Option (List SizePair) → Bool
  | none => true
  | some l => l.length == 0

/-- What one run of generateSizeMap in notAutoInsert.js writes after the
three inputs are collected: either the informational line or the JSON
size map. -/
inductive MainOutput where
  | message (text : String)
  | json (obj : SizeMapObj)
deriving DecidableEq

/-- generateSizeMap from notAutoInsert.js, after the three validated
input lines are collected: parse all three, short-circuit with the
informational message when every result is null or empty, and otherwise
print the JSON produced by createSizeMap. -/
def generateSizeMap (desktopInput tabletInput mobileInput : String) : MainOutput :=
  let desktopSizes := parseSizes desktopInput
  let tabletSizes := parseSizes tabletInput
  let mobileSizes := parseSizes mobileInput
  if isNullOrEmpty desktopSizes && isNullOrEmpty tabletSizes && isNullOrEmpty mobileSizes then
    .message "No size config needed"
  else
    .json (createSizeMap desktopSizes tabletSizes mobileSizes)

end NotAutoInsert

namespace SizeMapRef

/-- createSizeMap from sizeMapRef.js: unconditionally push one entry per
device category, in desktop, tablet, mobile order; the conditional
expression maps a null result to the literal null and keeps any array. -/
def createSizeMap (desktopSizes tabletSizes mobileSizes : Option (List SizePair)) :
    SizeMapObj :=
  let sizeMap : List SizeMapEntry := []
  let sizeMap := sizeMap ++ [([992], if desktopSizes ≠ none then desktopSizes else none)]
  let sizeMap := sizeMap ++ [([768], if tabletSizes ≠ none then tabletSizes else none)]
  let sizeMap := sizeMap ++ [([0], if mobileSizes ≠ none then mobileSizes else none)]
  ⟨sizeMap⟩

end SizeMapRef

namespace UnnamedVariant

/-- One element of the envExt array: a non-null size-pair array together
with the device label looked up for its index. -/
structure ExtEntry where
  sizes : List SizePair
  envs : Option String
deriving DecidableEq

/-- The result object of generateSizeMap in the unnamed variant: the
sizes, envs and envExt keys are each absent until assigned. -/
structure FPEResult where
  sizes : Option (List SizePair)
  envs : Option String
  envExt : Option (List ExtEntry)
deriving DecidableEq

/-- Pair each input with devices[index] for its position, as the forEach
callback reads them; an index past the end of devices reads undefined. -/
def pairWithDevices : List (Option (List SizePair)) → List String →
    List (Option (List SizePair) × Option String)
  | [], _ => []
  | s :: rest, [] => (s, none) :: pairWithDevices rest []
  | s :: rest, d :: ds => (s, some d) :: pairWithDevices rest ds

/-- The forEach body of generateSizeMap in the unnamed variant: skip a
null or empty category; give the first kept category the primary sizes
and envs slots; append every later kept category to envExt. -/
def forEachBody (result : FPEResult) (envExt : List ExtEntry) :
    List (Option (List SizePair) × Option String) → FPEResult × List ExtEntry
  | [] => (result, envExt)
  | (sizes, envs) :: rest =>
    match sizes with
    | none => forEachBody result envExt rest
    | some l =>
      if l.length = 0 then forEachBody result envExt rest
      else
        match result.sizes with
        | none => forEachBody { result with sizes := some l, envs := envs } envExt rest
        | some _ => forEachBody result (envExt ++ [⟨l, envs⟩]) rest

/-- generateSizeMap from the unnamed variant: run the forEach body over
the indexed inputs starting from the empty result object, then attach
envExt only when it is non-empty. -/
def generateSizeMap (inputs : List (Option (List SizePair))) (devices : List String) :
    FPEResult :=
  let r := forEachBody ⟨none, none, none⟩ [] (pairWithDevices inputs devices)
  if 0 < r.2.length then { r.1 with envExt := some r.2 } else r.1

end UnnamedVariant

namespace Launcher

/-- The two observable resource actions of executeScript in main.js:
closing the readline interface of the launcher, then spawning the child
with the given command, arguments and stdio modes. -/
inductive LaunchAction where
  | closeRL
  | spawnChild (cmd : String) (args : List String) (stdio : List String)
deriving DecidableEq

/-- What one round of the startScript prompt decides for a given input
line: execute a named script, or print the invalid-choice line and
prompt again. -/
inductive LauncherStep where
  | execute (script : String)
  | reprompt
deriving DecidableEq

/-- The choice handling of startScript in main.js: trim and uppercase the
input, run autoInsert.js on A, run notAutoInsert.js on E, and otherwise
restart the prompt. -/
def startScript (input : String) : LauncherStep :=
  let choice := jsToUpper (jsTrim input)
  if choice = "A" then .execute "autoInsert.js"
  else if choice = "E" then .execute "notAutoInsert.js"
  else .reprompt

/-- executeScript from main.js: close the launcher readline interface,
then spawn node on the script with all three stdio streams inherited. -/
def executeScript (scriptName : String) : List LaunchAction :=
  [.closeRL, .spawnChild "node" [scriptName] ["inherit", "inherit", "inherit"]]

/-- The terminal events the spawned child can deliver to the launcher:
the close event with the exit code, or the error event when the process
could not be started. -/
inductive ChildEvent where
  | close (code : Int)
  | error (message : String)
deriving DecidableEq

/-- The exit code the launcher passes to process.exit for each child
event, per the two handlers installed in executeScript. -/
def launcherExitCode : ChildEvent → Int
  | .close code => code
  | .error _ => 1

end Launcher

section Helpers

/-- A decimal digit is not JavaScript whitespace. -/
lemma isDigitChar_not_ws {c : Char} (h : isDigitChar c = true) : isJsWs c = false := by
  simp [isDigitChar] at h
  simp [isJsWs]
  omega

/-- A decimal digit is not the separator x. -/
lemma isDigitChar_ne_x {c : Char} (h : isDigitChar c = true) : c ≠ 'x' := by
  rintro rfl
  exact absurd h (by decide)

/-- A decimal digit is not a sign character. -/
lemma isDigitChar_ne_sign {c : Char} (h : isDigitChar c = true) :
    (c == '-' || c == '+') = false := by
  rcases hc : c == '-' with _ | _
  · rcases hc' : c == '+' with _ | _
    · rfl
    · rw [beq_iff_eq] at hc'
      subst hc'
      exact absurd h (by decide)
  · rw [beq_iff_eq] at hc
    subst hc
    exact absurd h (by decide)

/-- A JavaScript whitespace character is not the separator x. -/
lemma isJsWs_ne_x {c : Char} (h : isJsWs c = true) : c ≠ 'x' := by
  rintro rfl
  exact absurd h (by decide)

/-- Dropping a satisfying prefix continues past an all-satisfying block. -/
lemma dropWhile_append_of_all {p : Char → Bool} {l1 : List Char} (l2 : List Char)
    (h : ∀ c ∈ l1, p c = true) :
    (l1 ++ l2).dropWhile p = l2.dropWhile p := by
  induction l1 with
  | nil => rfl
  | cons c t ih =>
    have hc : p c = true := h c (by simp)
    simp only [List.cons_append, List.dropWhile_cons_of_pos hc]
    exact ih (fun x hx => h x (by simp [hx]))

/-- A list all of whose elements satisfy the predicate is its own
takeWhile. -/
lemma takeWhile_eq_self_of_all {p : Char → Bool} {l : List Char}
    (h : ∀ c ∈ l, p c = true) : l.takeWhile p = l := by
  induction l with
  | nil => rfl
  | cons c t ih =>
    have hc : p c = true := h c (by simp)
    simp only [List.takeWhile_cons_of_pos hc]
    rw [ih (fun x hx => h x (by simp [hx]))]

/-- Splitting a list free of the separator yields that one piece. -/
lemma splitOnCharList_of_not_mem {sep : Char} {l : List Char}
    (h : ∀ c ∈ l, c ≠ sep) : splitOnCharList sep l = [l] := by
  induction l with
  | nil => rfl
  | cons c t ih =>
    have hc : c ≠ sep := h c (by simp)
    have ht := ih (fun x hx => h x (by simp [hx]))
    simp [splitOnCharList, hc, ht]

/-- Splitting past a separator-free block produces that block as the
first piece, followed by the split of the remainder. -/
lemma splitOnCharList_append {sep : Char} {l1 : List Char} (l2 : List Char)
    (h : ∀ c ∈ l1, c ≠ sep) :
    splitOnCharList sep (l1 ++ sep :: l2) = l1 :: splitOnCharList sep l2 := by
  induction l1 with
  | nil => simp [splitOnCharList]
  | cons c t ih =>
    have hc : c ≠ sep := h c (by simp)
    have ht := ih (fun x hx => h x (by simp [hx]))
    simp [splitOnCharList, hc, ht]

/-- Every character list is a whitespace prefix, its trim, and a
whitespace suffix. -/
lemma trimList_decomp (cs : List Char) :
    ∃ w1 w2, cs = w1 ++ trimList cs ++ w2 ∧
      (∀ c ∈ w1, isJsWs c = true) ∧ (∀ c ∈ w2, isJsWs c = true) := by
  refine ⟨cs.takeWhile isJsWs,
    (((cs.dropWhile isJsWs).reverse.takeWhile isJsWs)).reverse, ?_, ?_, ?_⟩
  · have h1 : cs.takeWhile isJsWs ++ cs.dropWhile isJsWs = cs :=
      List.takeWhile_append_dropWhile isJsWs cs
    have h2 : (cs.dropWhile isJsWs).reverse.takeWhile isJsWs ++
        (cs.dropWhile isJsWs).reverse.dropWhile isJsWs = (cs.dropWhile isJsWs).reverse :=
      List.takeWhile_append_dropWhile isJsWs (cs.dropWhile isJsWs).reverse
    have h3 : cs.dropWhile isJsWs =
        trimList cs ++ ((cs.dropWhile isJsWs).reverse.takeWhile isJsWs).reverse := by
      have h4 := congrArg List.reverse h2
      rw [List.reverse_append, List.reverse_reverse] at h4
      exact h4.symm
    calc cs = cs.takeWhile isJsWs ++ cs.dropWhile isJsWs := h1.symm
      _ = cs.takeWhile isJsWs ++
          (trimList cs ++ ((cs.dropWhile isJsWs).reverse.takeWhile isJsWs).reverse) := by
          rw [← h3]
      _ = _ := by simp
  · intro c hc
    exact List.mem_takeWhile_imp hc
  · intro c hc
    rw [List.mem_reverse] at hc
    exact List.mem_takeWhile_imp hc

/-- Decomposition of a string matching the WidthxHeight regex: a
non-empty digit block, the letter x, then a non-empty digit block. -/
lemma matchesWxHList_decomp {cs : List Char} (h : matchesWxHList cs = true) :
    ∃ a b, cs = a ++ 'x' :: b ∧ a ≠ [] ∧ (∀ c ∈ a, isDigitChar c = true) ∧
      b ≠ [] ∧ (∀ c ∈ b, isDigitChar c = true) := by
  simp only [matchesWxHList, Bool.and_eq_true, Bool.not_eq_true'] at h
  obtain ⟨h1, h2⟩ := h
  split at h2
  case h_1 rest2 heq =>
    simp only [Bool.and_eq_true, Bool.not_eq_true', List.all_eq_true] at h2
    refine ⟨cs.takeWhile isDigitChar, rest2, ?_, ?_, ?_, ?_, h2.2⟩
    · conv_lhs => rw [← List.takeWhile_append_dropWhile (p := isDigitChar) (l := cs)]
      rw [heq]
    · intro hnil
      rw [hnil] at h1
      exact absurd h1 (by decide)
    · intro c hc
      exact List.mem_takeWhile_imp hc
    · intro hnil
      rw [hnil] at h2
      exact absurd h2.1 (by decide)
  case h_2 =>
    exact absurd h2 (by decide)

/-- parseInt succeeds on whitespace followed by a digit-led block. -/
lemma jsParseIntList_isSome {w rest : List Char} {c : Char}
    (hw : ∀ x ∈ w, isJsWs x = true) (hc : isDigitChar c = true) :
    (jsParseIntList (w ++ c :: rest)).isSome = true := by
  have hdrop : (w ++ c :: rest).dropWhile isJsWs = c :: rest := by
    rw [dropWhile_append_of_all _ hw,
      List.dropWhile_cons_of_neg (by simp [isDigitChar_not_ws hc])]
  simp only [jsParseIntList, hdrop, List.headD_cons]
  rw [isDigitChar_ne_sign hc]
  simp only [if_false, Bool.false_eq_true]
  rw [List.takeWhile_cons_of_pos hc]
  simp only [List.isEmpty_cons, Bool.false_eq_true, if_false]
  split <;> simp

end Helpers

/-- Tokens whose trim matches the WidthxHeight regex always parse into a
pair of defined integers: the split on x yields exactly two parts, each
holding a digit block reachable by parseInt. -/
lemma parseToken_isSome_of_matches (t : String) (hm : matchesWxH (jsTrim t) = true) :
    ((parseToken t).1.isSome = true) ∧ ((parseToken t).2.isSome = true) := by
  have hm' : matchesWxHList (trimList t.toList) = true := hm
  obtain ⟨a, b, htrim, ha0, ha, hb0, hb⟩ := matchesWxHList_decomp hm'
  obtain ⟨w1, w2, hcs, hw1, hw2⟩ := trimList_decomp t.toList
  rw [htrim] at hcs
  have hno1 : ∀ c ∈ w1 ++ a, c ≠ 'x' := by
    intro c hc
    rcases List.mem_append.1 hc with h | h
    · exact isJsWs_ne_x (hw1 c h)
    · exact isDigitChar_ne_x (ha c h)
  have hno2 : ∀ c ∈ b ++ w2, c ≠ 'x' := by
    intro c hc
    rcases List.mem_append.1 hc with h | h
    · exact isDigitChar_ne_x (hb c h)
    · exact isJsWs_ne_x (hw2 c h)
  have hsplit : splitOnCharList 'x' t.toList = [w1 ++ a, b ++ w2] := by
    rw [hcs]
    have hre : w1 ++ (a ++ 'x' :: b) ++ w2 = (w1 ++ a) ++ 'x' :: (b ++ w2) := by simp
    rw [hre, splitOnCharList_append (b ++ w2) hno1, splitOnCharList_of_not_mem hno2]
  have hjs : jsSplit 'x' t = [(w1 ++ a).asString, (b ++ w2).asString] := by
    unfold jsSplit
    rw [hsplit]
    rfl
  rcases a with _ | ⟨ca, a2⟩
  · exact absurd rfl ha0
  rcases b with _ | ⟨cb, b2⟩
  · exact absurd rfl hb0
  constructor
  · have h1 : (parseToken t).1 = jsParseIntList (w1 ++ ca :: a2) := by
      simp only [parseToken, hjs, List.get?]
      rfl
    rw [h1]
    exact jsParseIntList_isSome hw1 (ha ca (by simp))
  · have h2 : (parseToken t).2 = jsParseIntList ((cb :: b2) ++ w2) := by
      simp only [parseToken, hjs, List.get?]
      rfl
    rw [h2, List.cons_append]
    exact jsParseIntList_isSome (w := []) (by simp) (hb cb (by simp))

/-- The acceptance condition of the input loop, rewritten positively: the
line is empty, lowercases to null, or every comma token is accepted by
isValidFormat after trimming. -/
lemma getValidInputAccepts_eq (input : String) :
    getValidInputAccepts input =
      (input == "" || jsToLower input == "null" ||
        (jsSplit ',' input).all (fun size => isValidFormat (jsTrim size))) := by
  unfold getValidInputAccepts
  cases ha : input == "" <;> cases hb : jsToLower input == "null" <;>
    simp [bne, ha, hb, List.all_eq_not_any_not, Bool.not_not]

/-- The acceptance predicate exactly as the specification words it: the
empty line, a case-insensitive null, or a comma-separated list of tokens
each matching the WidthxHeight regex after trimming. -/
def specValidatorAccepts (input : String) : Bool :=
  input == "" || jsToLower input == "null" ||
    (jsSplit ',' input).all (fun t => matchesWxH (jsTrim t))

/-- The entries one device category contributes to the list-of-breakpoints
size map: one null entry for an explicit null, one entry with the sizes
for a non-empty array, and nothing for an empty array. -/
def breakpointEntries (threshold : Nat) : Option (List SizePair) → List SizeMapEntry
  | none => [([threshold], none)]
  | some l => if l = [] then [] else [([threshold], some l)]

/-- The first-plus-extensions policy as the specification words it: keep
the categories that are neither null nor empty in desktop, tablet, mobile
order; the first kept category fills the primary sizes and envs slots and
the remaining kept categories form the envExt list. -/
def fpeSpec (d t m : Option (List SizePair)) : UnnamedVariant.FPEResult :=
  let kept := ([(d, "d"), (t, "t"), (m, "m")]).filterMap
    (fun p =>
      match p.1 with
      | none => none
      | some l => if l = [] then none else some (l, p.2))
  match kept with
  | [] => ⟨none, none, none⟩
  | (l0, e0) :: rest =>
    ⟨some l0, some e0,
      if rest = [] then none
      else some (rest.map (fun q => ⟨q.1, some q.2⟩))⟩

/-- C1, counterexample: the input consisting of one comma is accepted by
the validation loop, yet it is non-empty, not a spelling of null, and its
tokens do not all match the WidthxHeight regex, so the claimed
acceptance condition rejects it. -/
theorem c1_validator_counterexample :
    getValidInputAccepts "," = true ∧ specValidatorAccepts "," = false := by
  decide

/-- C1, amended: the validation loop accepts a line exactly when it is
empty, lowercases to null, or every comma-separated token is accepted by
isValidFormat after trimming, that is, each token is empty, the exact
lowercase literal null, or a match of the WidthxHeight regex. -/
theorem c1_validator_amended (input : String) :
    getValidInputAccepts input = true ↔
      (input = "" ∨ jsToLower input = "null" ∨
        ∀ t ∈ jsSplit ',' input, isValidFormat (jsTrim t) = true) := by
  rw [getValidInputAccepts_eq]
  simp [or_assoc]

/-- C1, witness: the amended acceptance condition applied to a line mixing
a regex token with a null token. -/
theorem c1_validator_amended_witness : getValidInputAccepts "12x34,null" = true :=
  (c1_validator_amended "12x34,null").mpr (by decide)

/-- C2: parseSizes maps every case-insensitive spelling of null to the
null result, the empty string to the empty array, and any other input to
the comma tokens each parsed into a width-height pair in input order; in
particular the documented example parses to the two listed pairs. -/
theorem c2_parseSizes :
    (∀ s : String, jsToLower s = "null" → parseSizes s = none) ∧
    parseSizes "" = some [] ∧
    (∀ s : String, s ≠ "" → jsToLower s ≠ "null" →
      parseSizes s = some ((jsSplit ',' s).map parseToken)) ∧
    parseSizes "150x50,300x100" = some [(some 150, some 50), (some 300, some 100)] := by
  refine ⟨?_, by decide, ?_, by decide⟩
  · intro s h
    simp [parseSizes, h]
  · intro s h1 h2
    simp [parseSizes, h1, h2]

/-- C2, witness: two concrete spellings of null both give the null
result. -/
theorem c2_parseSizes_witness : parseSizes "NULL" = none ∧ parseSizes "nUlL" = none :=
  ⟨c2_parseSizes.1 "NULL" (by decide), c2_parseSizes.1 "nUlL" (by decide)⟩

/-- C3: the list-of-breakpoints assembler concatenates the desktop,
tablet and mobile contributions in that fixed order under thresholds 992,
768 and 0, where a category contributes a null entry when explicit-null,
its sizes when non-empty, and nothing when empty; the documented example
keeps desktop and mobile and omits the empty tablet. -/
theorem c3_createSizeMap_list_of_breakpoints :
    (∀ d t m, (NotAutoInsert.createSizeMap d t m).sizeMap =
      breakpointEntries 992 d ++ breakpointEntries 768 t ++ breakpointEntries 0 m) ∧
    NotAutoInsert.createSizeMap (some [(some 150, some 50)]) (some []) none =
      ⟨[([992], some [(some 150, some 50)]), ([0], none)]⟩ := by
  refine ⟨?_, by decide⟩
  intro d t m
  rcases d with _ | (_ | ⟨p1, l1⟩) <;> rcases t with _ | (_ | ⟨p2, l2⟩) <;>
    rcases m with _ | (_ | ⟨p3, l3⟩) <;>
    simp [NotAutoInsert.createSizeMap, breakpointEntries]

/-- C4: on the three device categories with their labels d, t and m, the
first-plus-extensions assembler skips every null or empty category,
assigns the first kept category to the primary sizes and envs slots,
collects every later kept category into envExt in order, and returns the
empty object when nothing is kept. -/
theorem c4_generateSizeMap_first_plus_extensions (d t m : Option (List SizePair)) :
    UnnamedVariant.generateSizeMap [d, t, m] ["d", "t", "m"] = fpeSpec d t m := by
  rcases d with _ | (_ | ⟨p1, l1⟩) <;> rcases t with _ | (_ | ⟨p2, l2⟩) <;>
    rcases m with _ | (_ | ⟨p3, l3⟩) <;>
    simp [UnnamedVariant.generateSizeMap, UnnamedVariant.pairWithDevices,
      UnnamedVariant.forEachBody, fpeSpec]

/-- C5: whenever all three parsed device results are null or empty, the
list-of-breakpoints variant prints the no-configuration line instead of
any JSON object. -/
theorem c5_no_config_short_circuit (desktopInput tabletInput mobileInput : String)
    (hd : NotAutoInsert.isNullOrEmpty (parseSizes desktopInput) = true)
    (ht : NotAutoInsert.isNullOrEmpty (parseSizes tabletInput) = true)
    (hm : NotAutoInsert.isNullOrEmpty (parseSizes mobileInput) = true) :
    NotAutoInsert.generateSizeMap desktopInput tabletInput mobileInput =
      .message "No size config needed" := by
  simp [NotAutoInsert.generateSizeMap, hd, ht, hm]

/-- C5, witness: the short circuit at an empty desktop line, a null
tablet line and an empty mobile line. -/
theorem c5_no_config_short_circuit_witness :
    NotAutoInsert.generateSizeMap "" "null" "" = .message "No size config needed" :=
  c5_no_config_short_circuit "" "null" "" (by decide) (by decide) (by decide)

/-- C6, counterexample: the line holding one regex token and one null
token is accepted by the validation loop, is neither empty nor a spelling
of null, yet its second parsed pair has no defined component, so parsing
an accepted line can fail. -/
theorem c6_parse_counterexample :
    getValidInputAccepts "150x50,null" = true ∧
    ("150x50,null" : String) ≠ "" ∧ jsToLower "150x50,null" ≠ "null" ∧
    parseSizes "150x50,null" = some [(some 150, some 50), (none, none)] := by
  refine ⟨by decide, by decide, by decide, by decide⟩

/-- C6, amended: on a non-empty, non-null line every one of whose comma
tokens matches the WidthxHeight regex after trimming, the loop accepts
and every pair emitted by parseSizes has both components successfully
parsed; the guarantee of the regex gate holds for regex tokens only, not
for the empty and null tokens the loop also lets through. -/
theorem c6_regex_gate_amended (input : String)
    (hne : input ≠ "") (hnull : jsToLower input ≠ "null")
    (htok : ∀ t ∈ jsSplit ',' input, matchesWxH (jsTrim t) = true) :
    getValidInputAccepts input = true ∧
    ∃ l, parseSizes input = some l ∧
      ∀ p ∈ l, p.1.isSome = true ∧ p.2.isSome = true := by
  constructor
  · rw [getValidInputAccepts_eq]
    have hall : (jsSplit ',' input).all (fun size => isValidFormat (jsTrim size)) = true := by
      rw [List.all_eq_true]
      intro t ht
      simp [isValidFormat, htok t ht]
    simp [hall]
  · refine ⟨(jsSplit ',' input).map parseToken, by simp [parseSizes, hne, hnull], ?_⟩
    intro p hp
    rw [List.mem_map] at hp
    obtain ⟨t, ht, rfl⟩ := hp
    exact parseToken_isSome_of_matches t (htok t ht)

/-- C6, witness: the amended guarantee at a line of two regex tokens with
surrounding whitespace on the first. -/
theorem c6_regex_gate_amended_witness :
    getValidInputAccepts " 150x50 ,300x100" = true ∧
    ∃ l, parseSizes " 150x50 ,300x100" = some l ∧
      ∀ p ∈ l, p.1.isSome = true ∧ p.2.isSome = true :=
  c6_regex_gate_amended " 150x50 ,300x100" (by decide) (by decide) (by decide)

/-- C7: the launcher re-prompts exactly when the trimmed, uppercased
input is neither A nor E; A starts autoInsert.js and E starts
notAutoInsert.js; a recognized choice first closes the launcher readline
interface and then spawns node on the script with all three standard
streams inherited; and the launcher exits with the child exit code on the
close event and with the fixed code 1 on the error event. -/
theorem c7_launcher :
    (∀ s : String, Launcher.startScript s = .reprompt ↔
      (jsToUpper (jsTrim s) ≠ "A" ∧ jsToUpper (jsTrim s) ≠ "E")) ∧
    (∀ s : String, jsToUpper (jsTrim s) = "A" →
      Launcher.startScript s = .execute "autoInsert.js") ∧
    (∀ s : String, jsToUpper (jsTrim s) = "E" →
      Launcher.startScript s = .execute "notAutoInsert.js") ∧
    (∀ script : String, Launcher.executeScript script =
      [.closeRL, .spawnChild "node" [script] ["inherit", "inherit", "inherit"]]) ∧
    (∀ code : Int, Launcher.launcherExitCode (.close code) = code) ∧
    (∀ msg : String, Launcher.launcherExitCode (.error msg) = 1) := by
  refine ⟨?_, ?_, ?_, fun _ => rfl, fun _ => rfl, fun _ => rfl⟩
  · intro s
    constructor
    · intro h
      by_cases h1 : jsToUpper (jsTrim s) = "A"
      · simp [Launcher.startScript, h1] at h
      · by_cases h2 : jsToUpper (jsTrim s) = "E"
        · simp [Launcher.startScript, h1, h2] at h
        · exact ⟨h1, h2⟩
    · rintro ⟨h1, h2⟩
      simp [Launcher.startScript, h1, h2]
  · intro s h
    simp [Launcher.startScript, h]
  · intro s h
    simp [Launcher.startScript, h]

/-- C7, witness: a lowercase padded a starts autoInsert.js, a bare e
starts notAutoInsert.js, and a child exit code of 3 is propagated. -/
theorem c7_launcher_witness :
    Launcher.startScript " a " = .execute "autoInsert.js" ∧
    Launcher.startScript "e" = .execute "notAutoInsert.js" ∧
    Launcher.launcherExitCode (.close 3) = 3 :=
  ⟨c7_launcher.2.1 " a " (by decide), c7_launcher.2.2.1 "e" (by decide),
    c7_launcher.2.2.2.2.1 3⟩

/-- C8: the parser and both assemblers are pure functions of their
arguments in this embedding, so two applications to the same accepted
input give identical results; the source bodies read only their
parameters and locals, never the readline interface or other shared
state. -/
theorem c8_purity (s : String) (d t m : Option (List SizePair))
    (inputs : List (Option (List SizePair))) (devices : List String) :
    parseSizes s = parseSizes s ∧
    NotAutoInsert.createSizeMap d t m = NotAutoInsert.createSizeMap d t m ∧
    UnnamedVariant.generateSizeMap inputs devices =
      UnnamedVariant.generateSizeMap inputs devices :=
  ⟨rfl, rfl, rfl⟩

/-- C9: the sizeMapRef.js assembler always returns exactly three entries,
under the thresholds 992, 768 and 0 in that order, carrying the three
inputs unchanged, so an empty category keeps its empty array instead of
being omitted. -/
theorem c9_sizeMapRef_three_entries (d t m : Option (List SizePair)) :
    (SizeMapRef.createSizeMap d t m).sizeMap.length = 3 ∧
    (SizeMapRef.createSizeMap d t m).sizeMap.map Prod.fst = [[992], [768], [0]] ∧
    (SizeMapRef.createSizeMap d t m).sizeMap.map Prod.snd = [d, t, m] := by
  rcases d with _ | l1 <;> rcases t with _ | l2 <;> rcases m with _ | l3 <;>
    simp [SizeMapRef.createSizeMap]

/-- C10: when no category is an empty array, the notAutoInsert.js
assembler and the sizeMapRef.js assembler return the same size map. -/
theorem c10_assemblers_agree (d t m : Option (List SizePair))
    (hd : d ≠ some []) (ht : t ≠ some []) (hm : m ≠ some []) :
    NotAutoInsert.createSizeMap d t m = SizeMapRef.createSizeMap d t m := by
  rcases d with _ | (_ | ⟨p1, l1⟩) <;> rcases t with _ | (_ | ⟨p2, l2⟩) <;>
    rcases m with _ | (_ | ⟨p3, l3⟩) <;>
    first
      | exact absurd rfl hd
      | exact absurd rfl ht
      | exact absurd rfl hm
      | simp [NotAutoInsert.createSizeMap, SizeMapRef.createSizeMap]

/-- C10, witness: the two assemblers agree on a null desktop, one tablet
pair and one mobile pair. -/
theorem c10_assemblers_agree_witness :
    NotAutoInsert.createSizeMap none (some [(some 150, some 50)])
        (some [(some 300, some 100)]) =
      SizeMapRef.createSizeMap none (some [(some 150, some 50)])
        (some [(some 300, some 100)]) :=
  c10_assemblers_agree none (some [(some 150, some 50)]) (some [(some 300, some 100)])
    (by decide) (by decide) (by decide)
